import Mathlib

/-!
Verification of the job-queue / OAuth relay core.

The persistent store is SQLite; timestamp columns hold TEXT values that the
queries compare under the BINARY collation, i.e. bytewise.  We therefore model
stored timestamps by their byte sequences (List Nat of ASCII codes) and model
the SQL comparison operators as lexicographic byte comparison.  The JS side
writes scheduled_at with Date.toISOString (format YYYY-MM-DDTHH:MM:SS.mmmZ)
while SQLite datetime(now) produces YYYY-MM-DD HH:MM:SS; both serializers are
modelled below.
-/

/-- Calendar timestamp, the abstraction common to both serializations. -/
structure DateTime where
  year : Nat
  month : Nat
  day : Nat
  hour : Nat
  minute : Nat
  second : Nat
  ms : Nat
deriving DecidableEq, Repr

/-- Three-way comparison on Nat, written explicitly so proofs split on the
same if-then-else the definitions use. -/
def natCmp (m n : Nat) : Ordering :=
  if m < n then .lt else if n < m then .gt else .eq

/-- Bytewise three-way comparison of TEXT values, as performed by the SQLite
BINARY collation. -/
def bytesCmp : List Nat → List Nat → Ordering
  | [], [] => .eq
  | [], _ :: _ => .lt
  | _ :: _, [] => .gt
  | a :: as, b :: bs => if a < b then .lt else if b < a then .gt else bytesCmp as bs

/-- SQL operator a < b on TEXT values. -/
def bytesLt (a b : List Nat) : Bool := bytesCmp a b == .lt

/-- SQL operator a <= b on TEXT values. -/
def bytesLe (a b : List Nat) : Bool := bytesCmp a b != .gt

/-- Two ASCII digit bytes (zero padded), as produced by the pad helpers of
both serializers. -/
def digits2 (n : Nat) : List Nat := [48 + n / 10, 48 + n % 10]

/-- Three ASCII digit bytes, for the milliseconds field of toISOString. -/
def digits3 (n : Nat) : List Nat := [48 + n / 100] ++ digits2 (n % 100)

/-- Four ASCII digit bytes, for the year field. -/
def digits4 (n : Nat) : List Nat := digits2 (n / 100) ++ digits2 (n % 100)

/-- Bytes of Date.toISOString: YYYY-MM-DDTHH:MM:SS.mmmZ (84 is T, 45 hyphen,
58 colon, 46 dot, 90 Z).  This is the format addPost stores in scheduled_at. -/
def isoBytes (d : DateTime) : List Nat :=
  digits4 d.year ++ [45] ++ digits2 d.month ++ [45] ++ digits2 d.day ++ [84] ++
  digits2 d.hour ++ [58] ++ digits2 d.minute ++ [58] ++ digits2 d.second ++
  [46] ++ digits3 d.ms ++ [90]

/-- Bytes of SQLite datetime(now) / CURRENT_TIMESTAMP: YYYY-MM-DD HH:MM:SS
(32 is the space).  This is the format of created_at and updated_at and of
the right-hand side of the ready-set comparison. -/
def sqlBytes (d : DateTime) : List Nat :=
  digits4 d.year ++ [45] ++ digits2 d.month ++ [45] ++ digits2 d.day ++ [32] ++
  digits2 d.hour ++ [58] ++ digits2 d.minute ++ [58] ++ digits2 d.second

/-- Chronological three-way comparison at millisecond resolution:
lexicographic on the calendar fields. -/
def chronoCmp (d e : DateTime) : Ordering :=
  (natCmp d.year e.year).then ((natCmp d.month e.month).then
    ((natCmp d.day e.day).then ((natCmp d.hour e.hour).then
    ((natCmp d.minute e.minute).then ((natCmp d.second e.second).then
    (natCmp d.ms e.ms))))))

/-- Chronological comparison at second resolution (the resolution of the
SQLite datetime format, which carries no milliseconds). -/
def chronoCmpS (d e : DateTime) : Ordering :=
  (natCmp d.year e.year).then ((natCmp d.month e.month).then
    ((natCmp d.day e.day).then ((natCmp d.hour e.hour).then
    ((natCmp d.minute e.minute).then (natCmp d.second e.second)))))

/-- Strictly earlier, millisecond resolution. -/
def chronoLt (d e : DateTime) : Bool := chronoCmp d e == .lt

/-- Not later, millisecond resolution. -/
def chronoLe (d e : DateTime) : Bool := chronoCmp d e != .gt

/-- Strictly earlier, second resolution. -/
def chronoLtS (d e : DateTime) : Bool := chronoCmpS d e == .lt

-- ===========================================================================
-- Comparison infrastructure lemmas
-- ===========================================================================

theorem bytesCmp_eq_iff (a b : List Nat) : bytesCmp a b = .eq ↔ a = b := by
  induction a generalizing b with
  | nil => cases b <;> simp [bytesCmp]
  | cons x as ih =>
    cases b with
    | nil => simp [bytesCmp]
    | cons y bs =>
      simp only [bytesCmp]
      split_ifs with h1 h2
      · simp; omega
      · simp; omega
      · have hxy : x = y := by omega
        simp [hxy, ih]

theorem bytesCmp_swap (a b : List Nat) :
    bytesCmp b a = (bytesCmp a b).swap := by
  induction a generalizing b with
  | nil => cases b <;> simp [bytesCmp, Ordering.swap]
  | cons x as ih =>
    cases b with
    | nil => simp [bytesCmp, Ordering.swap]
    | cons y bs =>
      simp only [bytesCmp]
      split_ifs with h1 h2 h3 h4 <;>
        simp_all [Ordering.swap] <;> omega

theorem bytesCmp_lt_trans {a b c : List Nat}
    (hab : bytesCmp a b = .lt) (hbc : bytesCmp b c = .lt) :
    bytesCmp a c = .lt := by
  induction a generalizing b c with
  | nil =>
    cases b with
    | nil => simp [bytesCmp] at hab
    | cons y bs => cases c with
      | nil => simp [bytesCmp] at hbc
      | cons z cs => simp [bytesCmp]
  | cons x as ih =>
    cases b with
    | nil => simp [bytesCmp] at hab
    | cons y bs =>
      cases c with
      | nil => simp [bytesCmp] at hbc
      | cons z cs =>
        simp only [bytesCmp] at hab hbc ⊢
        by_cases hxy : x < y
        · by_cases hyz : y < z
          · have : x < z := by omega
            simp [this]
          · by_cases hzy : z < y
            · simp [hxy, hyz, hzy] at hbc
            · have hyzeq : y = z := by omega
              simp [hxy ,hyzeq ▸ hxy]
        · by_cases hyx : y < x
          · simp [hxy, hyx] at hab
          · have hxyeq : x = y := by omega
            subst hxyeq
            simp only [hxy, if_neg, lt_irrefl, if_false] at hab
            by_cases hyz : x < z
            · simp [hyz]
            · by_cases hzy : z < x
              · simp [hyz, hzy] at hbc
              · have : x = z := by omega
                subst this
                simp only [lt_irrefl, if_false] at hbc ⊢
                exact ih hab hbc

theorem ordering_then_assoc (a b c : Ordering) :
    (a.then b).then c = a.then (b.then c) := by
  cases a <;> rfl

theorem ordering_then_eq (a : Ordering) : a.then .eq = a := by
  cases a <;> rfl

theorem bytesCmp_append (a b : List Nat) (h : a.length = b.length)
    (xs ys : List Nat) :
    bytesCmp (a ++ xs) (b ++ ys) = (bytesCmp a b).then (bytesCmp xs ys) := by
  induction a generalizing b with
  | nil =>
    cases b with
    | nil => simp [bytesCmp, Ordering.then]
    | cons y bs => simp at h
  | cons x as ih =>
    cases b with
    | nil => simp at h
    | cons y bs =>
      simp only [List.cons_append, bytesCmp]
      split_ifs with h1 h2
      · simp [Ordering.then]
      · simp [Ordering.then]
      · exact ih bs (by simpa using h)

theorem natCmp_comp100 (m n : Nat) :
    (natCmp (m / 100) (n / 100)).then (natCmp (m % 100) (n % 100)) =
      natCmp m n := by
  simp only [natCmp]
  split_ifs <;> first | rfl | (exfalso; omega)

theorem bytesCmp_digits2 (m n : Nat) :
    bytesCmp (digits2 m) (digits2 n) = (natCmp (m / 10) (n / 10)).then (natCmp (m % 10) (n % 10)) := by
  simp only [digits2, bytesCmp, natCmp]
  split_ifs <;> first | rfl | (exfalso; omega)

theorem natCmp_comp10 (m n : Nat) :
    (natCmp (m / 10) (n / 10)).then (natCmp (m % 10) (n % 10)) =
      natCmp m n := by
  simp only [natCmp]
  split_ifs <;> first | rfl | (exfalso; omega)

theorem bytesCmp_d2_append (m n : Nat) (xs ys : List Nat) :
    bytesCmp (digits2 m ++ xs) (digits2 n ++ ys) =
      (natCmp m n).then (bytesCmp xs ys) := by
  rw [bytesCmp_append _ _ (by simp [digits2]), bytesCmp_digits2, natCmp_comp10]

theorem bytesCmp_byte_append (a b : Nat) (xs ys : List Nat) :
    bytesCmp ((48 + a) :: xs) ((48 + b) :: ys) =
      (natCmp a b).then (bytesCmp xs ys) := by
  simp only [bytesCmp, natCmp]
  split_ifs <;> first | rfl | (exfalso; omega)

theorem bytesCmp_sep (s : Nat) (xs ys : List Nat) :
    bytesCmp (s :: xs) (s :: ys) = bytesCmp xs ys := by
  simp [bytesCmp]

theorem bytesCmp_nil : bytesCmp [] [] = .eq := rfl

/-- Bytewise comparison of two toISOString serializations agrees with the
chronological order of the timestamps. -/
theorem bytesCmp_isoBytes (d e : DateTime) :
    bytesCmp (isoBytes d) (isoBytes e) = chronoCmp d e := by
  simp only [isoBytes, digits4, digits3, List.append_assoc, List.singleton_append,
    List.cons_append, List.nil_append]
  simp only [bytesCmp_d2_append, bytesCmp_sep, bytesCmp_byte_append, bytesCmp_nil,
    ordering_then_eq]
  simp only [natCmp_comp100]
  rw [← ordering_then_assoc (natCmp (d.year / 100) (e.year / 100))
      (natCmp (d.year % 100) (e.year % 100)), natCmp_comp100]
  rfl

/-- Bytewise comparison of two SQLite datetime serializations agrees with the
chronological order of the timestamps at second resolution. -/
theorem bytesCmp_sqlBytes (d e : DateTime) :
    bytesCmp (sqlBytes d) (sqlBytes e) = chronoCmpS d e := by
  simp only [sqlBytes, digits4, List.append_assoc, List.singleton_append,
    List.cons_append, List.nil_append]
  simp only [bytesCmp_d2_append, bytesCmp_sep, bytesCmp_nil, ordering_then_eq,
    bytesCmp_digits2, natCmp_comp10]
  rw [← ordering_then_assoc (natCmp (d.year / 100) (e.year / 100))
      (natCmp (d.year % 100) (e.year % 100)), natCmp_comp100]
  rfl

theorem bytesCmp_le_trans {a b c : List Nat}
    (hab : bytesCmp a b ≠ .gt) (hbc : bytesCmp b c ≠ .gt) :
    bytesCmp a c ≠ .gt := by
  cases h1 : bytesCmp a b with
  | gt => exact absurd h1 hab
  | eq => rw [bytesCmp_eq_iff] at h1; subst h1; exact hbc
  | lt =>
    cases h2 : bytesCmp b c with
    | gt => exact absurd h2 hbc
    | eq => rw [bytesCmp_eq_iff] at h2; subst h2; simp [h1]
    | lt => simp [bytesCmp_lt_trans h1 h2]

-- ===========================================================================
-- Store data model (table posts of src/storage/db.ts)
-- ===========================================================================

/-- Job status; the CHECK constraint of the posts table admits exactly these
three values. -/
inductive Status
  | pending
  | completed
  | failed
deriving DecidableEq, Repr

/-- One row of the posts table.  scheduled_at is nullable and, when present,
was written by addPost as a toISOString text; created_at and updated_at are
written by SQLite itself in datetime(now) format, so both are modelled as
structured timestamps together with the serialization each column uses. -/
structure Row where
  id : Nat
  platform : String
  action : String
  status : Status
  scheduled_at : Option DateTime
  content_json : String
  file_path : Option String
  result_json : Option String
  error_message : Option String
  retry_count : Nat
  created_at : DateTime
  updated_at : DateTime
deriving DecidableEq, Repr

/-- WHERE clause of getPendingJobs: status = pending AND (scheduled_at IS
NULL OR scheduled_at <= datetime(now)) AND retry_count < 3.  The comparison
is the bytewise TEXT comparison of the stored toISOString value against the
datetime(now) text. -/
def pendingWhere (now : DateTime) (r : Row) : Bool :=
  r.status == .pending &&
  (match r.scheduled_at with
   | none => true
   | some d => bytesLe (isoBytes d) (sqlBytes now)) &&
  decide (r.retry_count < 3)

/-- Comparison of the nullable scheduled_at sort key: SQLite orders NULL
before every non-NULL value in ASC order. -/
def schedCmp : Option DateTime → Option DateTime → Ordering
  | none, none => .eq
  | none, some _ => .lt
  | some _, none => .gt
  | some a, some b => bytesCmp (isoBytes a) (isoBytes b)

/-- ORDER BY scheduled_at ASC, created_at ASC as a three-way comparison. -/
def rowCmp (r1 r2 : Row) : Ordering :=
  (schedCmp r1.scheduled_at r2.scheduled_at).then
    (bytesCmp (sqlBytes r1.created_at) (sqlBytes r2.created_at))

/-- Not-after relation used to model the ORDER BY of getPendingJobs. -/
def rowLe (r1 r2 : Row) : Bool := rowCmp r1 r2 != .gt

theorem ordering_then_ne_gt (a b : Ordering) :
    a.then b ≠ .gt ↔ a = .lt ∨ (a = .eq ∧ b ≠ .gt) := by
  cases a <;> simp [Ordering.then]

theorem ordering_then_swap (a b : Ordering) :
    (a.swap).then (b.swap) = (a.then b).swap := by
  cases a <;> rfl

theorem rowLe_iff (r1 r2 : Row) : rowLe r1 r2 = true ↔ rowCmp r1 r2 ≠ .gt := by
  unfold rowLe
  cases h : rowCmp r1 r2 <;> simp [h] <;> decide

theorem schedCmp_swap (a b : Option DateTime) :
    schedCmp b a = (schedCmp a b).swap := by
  cases a with
  | none =>
    cases b with
    | none => rfl
    | some e => rfl
  | some d =>
    cases b with
    | none => rfl
    | some e => exact bytesCmp_swap _ _

theorem rowCmp_swap (r1 r2 : Row) : rowCmp r2 r1 = (rowCmp r1 r2).swap := by
  unfold rowCmp
  rw [schedCmp_swap, bytesCmp_swap, ordering_then_swap]

theorem rowLe_total (r1 r2 : Row) : rowLe r1 r2 = true ∨ rowLe r2 r1 = true := by
  by_cases h : rowCmp r1 r2 = .gt
  · right
    rw [rowLe_iff, rowCmp_swap, h]
    simp [Ordering.swap]
  · left
    rw [rowLe_iff]
    exact h

theorem schedCmp_lt_of_lt_eq {a b c : Option DateTime}
    (h1 : schedCmp a b = .lt) (h2 : schedCmp b c = .eq) : schedCmp a c = .lt := by
  cases a with
  | none =>
    cases b with
    | none => exact nomatch h1
    | some e =>
      cases c with
      | none => exact nomatch h2
      | some f => rfl
  | some d =>
    cases b with
    | none => exact nomatch h1
    | some e =>
      cases c with
      | none => exact nomatch h2
      | some f =>
        have he := (bytesCmp_eq_iff (isoBytes e) (isoBytes f)).mp h2
        show bytesCmp (isoBytes d) (isoBytes f) = .lt
        rw [← he]
        exact h1

theorem schedCmp_lt_of_eq_lt {a b c : Option DateTime}
    (h1 : schedCmp a b = .eq) (h2 : schedCmp b c = .lt) : schedCmp a c = .lt := by
  cases a with
  | none =>
    cases b with
    | none =>
      cases c with
      | none => exact nomatch h2
      | some f => rfl
    | some e => exact nomatch h1
  | some d =>
    cases b with
    | none => exact nomatch h1
    | some e =>
      cases c with
      | none => exact nomatch h2
      | some f =>
        have he := (bytesCmp_eq_iff (isoBytes d) (isoBytes e)).mp h1
        show bytesCmp (isoBytes d) (isoBytes f) = .lt
        rw [he]
        exact h2

theorem schedCmp_lt_trans {a b c : Option DateTime}
    (h1 : schedCmp a b = .lt) (h2 : schedCmp b c = .lt) : schedCmp a c = .lt := by
  cases a with
  | none =>
    cases b with
    | none => exact nomatch h1
    | some e =>
      cases c with
      | none => exact nomatch h2
      | some f => rfl
  | some d =>
    cases b with
    | none => exact nomatch h1
    | some e =>
      cases c with
      | none => exact nomatch h2
      | some f => exact bytesCmp_lt_trans h1 h2

theorem schedCmp_eq_trans {a b c : Option DateTime}
    (h1 : schedCmp a b = .eq) (h2 : schedCmp b c = .eq) : schedCmp a c = .eq := by
  cases a with
  | none =>
    cases b with
    | none =>
      cases c with
      | none => rfl
      | some f => exact nomatch h2
    | some e => exact nomatch h1
  | some d =>
    cases b with
    | none => exact nomatch h1
    | some e =>
      cases c with
      | none => exact nomatch h2
      | some f =>
        have he := (bytesCmp_eq_iff (isoBytes d) (isoBytes e)).mp h1
        show bytesCmp (isoBytes d) (isoBytes f) = .eq
        rw [he]
        exact h2

theorem rowLe_trans {r1 r2 r3 : Row}
    (h1 : rowLe r1 r2 = true) (h2 : rowLe r2 r3 = true) : rowLe r1 r3 = true := by
  rw [rowLe_iff] at h1 h2 ⊢
  simp only [rowCmp, ordering_then_ne_gt] at h1 h2 ⊢
  rcases h1 with h1 | ⟨h1, h1k⟩
  · rcases h2 with h2 | ⟨h2, _⟩
    · exact Or.inl (schedCmp_lt_trans h1 h2)
    · exact Or.inl (schedCmp_lt_of_lt_eq h1 h2)
  · rcases h2 with h2 | ⟨h2, h2k⟩
    · exact Or.inl (schedCmp_lt_of_eq_lt h1 h2)
    · exact Or.inr ⟨schedCmp_eq_trans h1 h2, bytesCmp_le_trans h1k h2k⟩

instance rowLeIsTotal : IsTotal Row (fun a b => rowLe a b = true) := ⟨rowLe_total⟩

instance rowLeIsTrans : IsTrans Row (fun a b => rowLe a b = true) :=
  ⟨fun _ _ _ => rowLe_trans⟩

-- ===========================================================================
-- Store operations (src/storage/db.ts)
-- ===========================================================================

/-- SELECT of getPendingJobs before the rowToJob mapping: WHERE filter, then
ORDER BY scheduled_at ASC, created_at ASC (NULL scheduled_at first). -/
def getPendingRows (store : List Row) (now : DateTime) : List Row :=
  List.insertionSort (fun a b => rowLe a b = true) (store.filter (pendingWhere now))

/-- markFailed: UPDATE posts SET status = failed, error_message = ?,
retry_count = retry_count + 1, updated_at = datetime(now) WHERE id = ?. -/
def markFailed (store : List Row) (id : Nat) (errorMessage : String)
    (now : DateTime) : List Row :=
  store.map fun r =>
    if r.id = id then
      { r with
        status := .failed
        error_message := some errorMessage
        retry_count := r.retry_count + 1
        updated_at := now }
    else r

/-- markComplete: UPDATE posts SET status = completed, result_json = ?,
updated_at = datetime(now) WHERE id = ?. -/
def markComplete (store : List Row) (id : Nat) (resultJson : String)
    (now : DateTime) : List Row :=
  store.map fun r =>
    if r.id = id then
      { r with
        status := .completed
        result_json := some resultJson
        updated_at := now }
    else r

/-- retryJob: UPDATE posts SET status = pending, error_message = NULL,
updated_at = datetime(now) WHERE id = ? AND status = failed; returns
result.changes > 0. -/
def retryJob (store : List Row) (id : Nat) (now : DateTime) :
    List Row × Bool :=
  let changes := store.countP fun r => r.id == id && r.status == Status.failed
  (store.map fun r =>
    if r.id = id ∧ r.status = .failed then
      { r with
        status := .pending
        error_message := none
        updated_at := now }
    else r,
   decide (changes > 0))

/-- deleteOldPosts: DELETE FROM posts WHERE created_at < datetime(now, -days)
AND status IN (completed, failed); returns result.changes.  The cutoff
argument stands for the datetime(now, -days) value SQLite computes; the
comparison against created_at is bytewise on two texts of the same
datetime format. -/
def deleteOldPosts (store : List Row) (cutoff : DateTime) : List Row × Nat :=
  let kept := store.filter fun r =>
    !(bytesLt (sqlBytes r.created_at) (sqlBytes cutoff) &&
      (r.status == Status.completed || r.status == Status.failed))
  (kept, store.length - kept.length)

/-- The ScheduledJob record rowToJob builds from a row. -/
structure ScheduledJob where
  id : Nat
  platform : String
  action : String
  status : Status
  scheduledAt : DateTime
  contentJson : String
  filePath : Option String
  resultJson : Option String
  errorMessage : Option String
  retryCount : Nat
  createdAt : DateTime
  updatedAt : DateTime
deriving DecidableEq, Repr

/-- rowToJob: scheduledAt is new Date(row.scheduled_at) when the column is
set (parsing the stored toISOString text back to the same instant) and
new Date() — the clock at the moment of the read, passed here as now —
when the column is NULL. -/
def rowToJob (now : DateTime) (r : Row) : ScheduledJob :=
  { id := r.id
    platform := r.platform
    action := r.action
    status := r.status
    scheduledAt := match r.scheduled_at with
      | some d => d
      | none => now
    contentJson := r.content_json
    filePath := r.file_path
    resultJson := r.result_json
    errorMessage := r.error_message
    retryCount := r.retry_count
    createdAt := r.created_at
    updatedAt := r.updated_at }

/-- getPendingJobs as exported: the SELECT result mapped through rowToJob. -/
def getPendingJobs (store : List Row) (now : DateTime) : List ScheduledJob :=
  (getPendingRows store now).map (rowToJob now)

/-- getJobById: SELECT * FROM posts WHERE id = ?, mapped through rowToJob. -/
def getJobById (store : List Row) (id : Nat) (now : DateTime) :
    Option ScheduledJob :=
  (store.find? fun r => r.id == id).map (rowToJob now)

/-- Options of listJobs. -/
structure ListOptions where
  status : Option Status
  platform : Option String
  limit : Option Nat
deriving Repr

/-- listJobs: optional status and platform filters, ORDER BY created_at DESC,
optional LIMIT, mapped through rowToJob. -/
def listJobs (store : List Row) (opts : ListOptions) (now : DateTime) :
    List ScheduledJob :=
  let rows := store.filter fun r =>
    (match opts.status with
     | none => true
     | some s => r.status == s) &&
    (match opts.platform with
     | none => true
     | some p => r.platform == p)
  let sorted := List.insertionSort
    (fun a b => bytesLe (sqlBytes b.created_at) (sqlBytes a.created_at) = true) rows
  let limited := match opts.limit with
    | none => sorted
    | some k => sorted.take k
  limited.map (rowToJob now)

-- ===========================================================================
-- Dispatch loop (src/scheduler/cron.ts processJobs body) and queue facade
-- (src/scheduler/queue.ts: failJob and completeJob delegate to markFailed
-- and markComplete)
-- ===========================================================================

/-- Executor result shape (SkillResult of src/platforms/types.ts), as far as
the dispatch loop inspects it.  The error field is optional; needsAuth is an
optional boolean that is falsy when absent. -/
structure SkillResult where
  success : Bool
  error : Option String
  needsAuth : Bool
deriving DecidableEq, Repr

/-- Outcome of one executeSkill invocation: either a parsed result or a
thrown exception caught by the loop. -/
inductive ExecOutcome
  | ok (r : SkillResult)
  | threw (msg : String)
deriving DecidableEq, Repr

/-- Rendering of the template Authentication required: plus result.error;
an absent error field prints as the text undefined, as in JS string
interpolation. -/
def authRequiredMessage (e : Option String) : String :=
  "Authentication required: " ++
    (match e with
     | some s => s
     | none => "undefined")

/-- Rendering of result.error or the Unknown error fallback; the JS test is
falsy, so an empty string also falls back. -/
def errorOrUnknown (e : Option String) : String :=
  match e with
  | some s => if s = "" then "Unknown error" else s
  | none => "Unknown error"

/-- Per-job body of processJobs: the retry-ceiling pre-check against the
configured MAX_RETRIES, then the interpretation of the executor outcome.
Success marks complete; a needsAuth failure and any other failure or thrown
error all go through failJob, which is markFailed. -/
def processOneJob (store : List Row) (job : ScheduledJob) (maxRetries : Nat)
    (outcome : ExecOutcome) (resultJson : String) (now : DateTime) : List Row :=
  if job.retryCount ≥ maxRetries then
    markFailed store job.id "Max retries exceeded" now
  else
    match outcome with
    | .threw msg => markFailed store job.id msg now
    | .ok r =>
      if r.success then
        markComplete store job.id resultJson now
      else if r.needsAuth then
        markFailed store job.id (authRequiredMessage r.error) now
      else
        markFailed store job.id (errorOrUnknown r.error) now

-- ===========================================================================
-- Credential storage and refresh (src/auth/token-manager.ts over the tokens
-- table of src/storage/db.ts)
-- ===========================================================================

/-- One credential record; expiresAt and the clock are epoch milliseconds,
the unit of Date.getTime and Date.now. -/
structure TokenData where
  platform : String
  accessToken : String
  refreshToken : Option String
  expiresAt : Option Int
deriving DecidableEq, Repr

/-- getToken: SELECT * FROM tokens WHERE platform = ?. -/
def getToken (store : List TokenData) (platform : String) : Option TokenData :=
  store.find? fun t => t.platform == platform

/-- saveToken: INSERT ... ON CONFLICT(platform) DO UPDATE, an upsert keyed
by the platform of the written record. -/
def saveToken (store : List TokenData) (data : TokenData) : List TokenData :=
  if store.any (fun t => t.platform == data.platform) then
    store.map fun t => if t.platform == data.platform then data else t
  else
    store ++ [data]

/-- needsRefresh: an expiry is set and lies less than the five-minute buffer
ahead of now (expiresAt.getTime() - Date.now() < REFRESH_BUFFER_MS). -/
def needsRefresh (t : TokenData) (now : Int) : Bool :=
  match t.expiresAt with
  | none => false
  | some e => decide (e - now < 300000)

/-- isExpired: an expiry is set and is not after now. -/
def isExpired (t : TokenData) (now : Int) : Bool :=
  match t.expiresAt with
  | none => false
  | some e => decide (e ≤ now)

/-- Behaviour of the caller-supplied async refreshFn on the stored token:
it resolves with a new token, resolves with null, or rejects. -/
inductive RefreshOutcome
  | success (t : TokenData)
  | nullResult
  | threw
deriving DecidableEq, Repr

/-- getValidToken; the last component counts refreshFn invocations.  The
try/catch logs and falls through to return null, without a second attempt
and without touching the store. -/
def getValidToken (store : List TokenData) (platform : String)
    (refreshFn : Option (TokenData → RefreshOutcome)) (now : Int) :
    Option TokenData × List TokenData × Nat :=
  match getToken store platform with
  | none => (none, store, 0)
  | some token =>
    if !needsRefresh token now && !isExpired token now then
      (some token, store, 0)
    else
      match token.refreshToken with
      | none => (none, store, 0)
      | some _ =>
        match refreshFn with
        | none => (none, store, 0)
        | some f =>
          match f token with
          | .success newToken => (some newToken, saveToken store newToken, 1)
          | .nullResult => (none, store, 1)
          | .threw => (none, store, 1)

-- ===========================================================================
-- OAuth handshake bridge (src/auth/oauth-server.ts)
-- ===========================================================================

/-- One handshake session stored in the in-memory oauthStates map under the
state token.  Byte strings produced by randomBytes are modelled as Nat
draws, so the state token key and the PKCE verifier are Nat. -/
structure OAuthState where
  platform : String
  userId : String
  codeVerifier : Option Nat
deriving DecidableEq, Repr

/-- oauthStates.get. -/
def mapGet (m : List (Nat × OAuthState)) (k : Nat) : Option OAuthState :=
  (m.find? fun e => e.1 == k).map fun e => e.2

/-- oauthStates.delete. -/
def mapDelete (m : List (Nat × OAuthState)) (k : Nat) :
    List (Nat × OAuthState) :=
  m.filter fun e => e.1 != k

/-- oauthStates.set: insert or replace under the key. -/
def mapSet (m : List (Nat × OAuthState)) (k : Nat) (v : OAuthState) :
    List (Nat × OAuthState) :=
  if m.any (fun e => e.1 == k) then
    m.map fun e => if e.1 == k then (k, v) else e
  else
    m ++ [(k, v)]

/-- verifyState: read the session under the state token and delete it when
present (read-and-delete). -/
def verifyState (m : List (Nat × OAuthState)) (s : Nat) :
    Option OAuthState × List (Nat × OAuthState) :=
  match mapGet m s with
  | some d => (some d, mapDelete m s)
  | none => (none, m)

/-- generatePKCE: a fresh random verifier and its challenge.  randBytes is
the random draw of this call; hash models the SHA-256 / base64url digest
(injective on the relevant draws). -/
def generatePKCE (hash : Nat → Nat) (randBytes : Nat) : Nat × Nat :=
  (randBytes, hash randBytes)

/-- What generateYouTubeAuthUrl leaves behind: the code_challenge query
parameter of the returned URL, the state token, and the new session map. -/
structure AuthUrlResult where
  codeChallenge : Nat
  state : Nat
  states : List (Nat × OAuthState)
deriving Repr

/-- generateYouTubeAuthUrl.  It draws one PKCE pair (r1) whose challenge
goes into the URL, registers the state (r2), and then — to store a verifier
with the session — calls generatePKCE a second time (r3) and stores that
fresh verifier. -/
def generateYouTubeAuthUrl (hash : Nat → Nat) (r1 r2 r3 : Nat)
    (userId : String) (m : List (Nat × OAuthState)) : AuthUrlResult :=
  let pkce := generatePKCE hash r1
  let state := r2
  let m1 := mapSet m state { platform := "youtube", userId := userId, codeVerifier := none }
  let m2 := match mapGet m1 state with
    | some stateData =>
      mapSet m1 state { stateData with codeVerifier := some (generatePKCE hash r3).1 }
    | none => m1
  { codeChallenge := pkce.2, state := state, states := m2 }

/-- The code_verifier parameter exchangeYouTubeCode puts in the token
request body: oauthStates.get(state)?.codeVerifier, spread into the body
only when defined. -/
def exchangeCodeVerifierParam (m : List (Nat × OAuthState)) (state : Nat) :
    Option Nat :=
  (mapGet m state).bind fun stateData => stateData.codeVerifier

/-- The callback flow of startOAuthServer as far as the verifier travels:
verifyState first (deleting the session), and only on success the exchange,
which then reads the map again.  Returns none when no exchange happens, and
some of the code_verifier parameter the exchange sends otherwise. -/
def callbackVerifierSent (m : List (Nat × OAuthState)) (state : Nat) :
    Option (Option Nat) :=
  match verifyState m state with
  | (some _, m1) => some (exchangeCodeVerifierParam m1 state)
  | (none, _) => none

/-- The callback handler status when code and state parameters are present
and the provider reported no error: 400 on unknown state, otherwise the
outcome of the code exchange (200 on success, 500 on failure). -/
def handleCallback (m : List (Nat × OAuthState)) (state : Nat)
    (exchangeOk : Bool) : Nat × List (Nat × OAuthState) :=
  match verifyState m state with
  | (none, m1) => (400, m1)
  | (some _, m1) => ((if exchangeOk then 200 else 500), m1)

-- ===========================================================================
-- Helper lemmas about the store operations
-- ===========================================================================

theorem markFailed_length (store : List Row) (id : Nat) (msg : String)
    (now : DateTime) : (markFailed store id msg now).length = store.length := by
  simp [markFailed]

/-- N successive fail invocations on the same job id. -/
def applyFailN (store : List Row) (id : Nat) (msg : String) (now : DateTime) :
    Nat → List Row
  | 0 => store
  | n + 1 => markFailed (applyFailN store id msg now n) id msg now

theorem applyFailN_length (store : List Row) (id : Nat) (msg : String)
    (now : DateTime) : ∀ N, (applyFailN store id msg now N).length = store.length := by
  intro N
  induction N with
  | zero => rfl
  | succ n ih => simp [applyFailN, markFailed_length, ih]

theorem applyFailN_get (store : List Row) (id : Nat) (msg : String)
    (now : DateTime) (i : Nat) (hi : i < store.length) :
    ∀ N (hiN : i < (applyFailN store id msg now N).length),
      ((applyFailN store id msg now N).get ⟨i, hiN⟩).id = (store.get ⟨i, hi⟩).id ∧
      ((applyFailN store id msg now N).get ⟨i, hiN⟩).retry_count =
        (if (store.get ⟨i, hi⟩).id = id then (store.get ⟨i, hi⟩).retry_count + N
         else (store.get ⟨i, hi⟩).retry_count) := by
  intro N
  induction N with
  | zero =>
    intro hiN
    simp [applyFailN]
  | succ n ih =>
    intro hiN
    have hn : i < (applyFailN store id msg now n).length := by
      rw [applyFailN_length]; exact hi
    obtain ⟨hid, hrc⟩ := ih hn
    simp only [List.get_eq_getElem] at hid hrc ⊢
    simp only [applyFailN, markFailed, List.getElem_map]
    by_cases h : store[i].id = id
    · simp only [hid, hrc, if_pos h]
      exact ⟨trivial, by omega⟩
    · simp only [hid, hrc, if_neg h]
      exact ⟨trivial, trivial⟩

-- ===========================================================================
-- Claim theorems
-- ===========================================================================

/-- C5: fail(jobId, msg) turns the row with that id to status failed
regardless of its prior status, stores msg as the error message, refreshes
updated-at to the statement clock, and increments retry_count by exactly
one, leaving other rows untouched; N such calls on a job that started at
retry_count 0 leave retry_count N. -/
theorem c5_fail_increments (store : List Row) (id : Nat) (msg : String)
    (now : DateTime) (i N : Nat) (hi : i < store.length)
    (hi1 : i < (markFailed store id msg now).length)
    (hiN : i < (applyFailN store id msg now N).length) :
    (markFailed store id msg now).length = store.length ∧
    ((store.get ⟨i, hi⟩).id = id →
      ((markFailed store id msg now).get ⟨i, hi1⟩).status = .failed ∧
      ((markFailed store id msg now).get ⟨i, hi1⟩).error_message = some msg ∧
      ((markFailed store id msg now).get ⟨i, hi1⟩).updated_at = now ∧
      ((markFailed store id msg now).get ⟨i, hi1⟩).retry_count =
        (store.get ⟨i, hi⟩).retry_count + 1) ∧
    ((store.get ⟨i, hi⟩).id ≠ id →
      (markFailed store id msg now).get ⟨i, hi1⟩ = store.get ⟨i, hi⟩) ∧
    ((store.get ⟨i, hi⟩).id = id → (store.get ⟨i, hi⟩).retry_count = 0 →
      ((applyFailN store id msg now N).get ⟨i, hiN⟩).retry_count = N) := by
  refine ⟨markFailed_length store id msg now, ?_, ?_, ?_⟩
  · intro h
    simp only [markFailed, List.get_eq_getElem, List.getElem_map]
    simp only [List.get_eq_getElem] at h
    rw [if_pos h]
    exact ⟨rfl, rfl, rfl, rfl⟩
  · intro h
    simp only [markFailed, List.get_eq_getElem, List.getElem_map]
    simp only [List.get_eq_getElem] at h
    rw [if_neg h]
  · intro h h0
    obtain ⟨_, hrc⟩ := applyFailN_get store id msg now i hi N hiN
    rw [hrc, if_pos h, h0]
    omega

/-- A reference instant used by concrete test stores. -/
def epochD : DateTime := ⟨2024, 1, 1, 0, 0, 0, 0⟩

/-- A pending job row used by concrete test stores. -/
def pendingRow : Row :=
  { id := 1
    platform := "youtube"
    action := "upload"
    status := .pending
    scheduled_at := none
    content_json := "c"
    file_path := none
    result_json := none
    error_message := none
    retry_count := 0
    created_at := epochD
    updated_at := epochD }

/-- A failed job row used by concrete test stores. -/
def failedRow : Row :=
  { id := 2
    platform := "facebook"
    action := "post"
    status := .failed
    scheduled_at := none
    content_json := "c2"
    file_path := none
    result_json := none
    error_message := some "boom"
    retry_count := 5
    created_at := epochD
    updated_at := epochD }

/-- Witness for C5 at a concrete store: two fail calls on a job enqueued
with retry_count 0 leave retry_count 2. -/
theorem c5_fail_increments_witness :
    ((applyFailN [pendingRow] 1 "err" epochD 2).get ⟨0, by decide⟩).retry_count = 2 := by
  have h := c5_fail_increments [pendingRow] 1 "err" epochD 0 2
    (by decide) (by decide) (by decide)
  exact h.2.2.2 (by decide) (by decide)

/-- C6: retry(jobId) returns true exactly when a row with that id exists in
failed status; in that case the row becomes pending with the error message
cleared and updated-at refreshed while retry_count is left unchanged; in
every other case it returns false and the store is unchanged. -/
theorem c6_retry_only_failed (store : List Row) (id : Nat) (now : DateTime) :
    ((retryJob store id now).2 = true ↔
      ∃ r ∈ store, r.id = id ∧ r.status = .failed) ∧
    ((retryJob store id now).2 = false → (retryJob store id now).1 = store) ∧
    (∀ (i : Nat) (hi : i < store.length)
      (hi2 : i < (retryJob store id now).1.length),
      ((store.get ⟨i, hi⟩).id = id → (store.get ⟨i, hi⟩).status = .failed →
        (retryJob store id now).1.get ⟨i, hi2⟩ =
          { store.get ⟨i, hi⟩ with
              status := .pending
              error_message := none
              updated_at := now }) ∧
      ((retryJob store id now).1.get ⟨i, hi2⟩).retry_count =
        (store.get ⟨i, hi⟩).retry_count ∧
      (¬((store.get ⟨i, hi⟩).id = id ∧ (store.get ⟨i, hi⟩).status = .failed) →
        (retryJob store id now).1.get ⟨i, hi2⟩ = store.get ⟨i, hi⟩)) := by
  refine ⟨?_, ?_, ?_⟩
  · simp only [retryJob, decide_eq_true_iff, List.countP_pos_iff,
      Bool.and_eq_true, beq_iff_eq]
  · intro h
    simp only [retryJob, decide_eq_false_iff_not, Nat.not_lt, Nat.le_zero] at h
    have hall := List.countP_eq_zero.mp h
    simp only [retryJob]
    have hcong : ∀ r ∈ store,
        (if r.id = id ∧ r.status = .failed then
          { r with status := .pending, error_message := none, updated_at := now }
         else r) = r := by
      intro r hr
      have hnr := hall r hr
      simp only [Bool.and_eq_true, beq_iff_eq] at hnr
      rw [if_neg (by tauto)]
    calc store.map _ = store.map (fun r => r) := List.map_congr_left hcong
      _ = store := List.map_id' store
  · intro i hi hi2
    simp only [retryJob, List.get_eq_getElem, List.getElem_map]
    refine ⟨?_, ?_, ?_⟩
    · intro h1 h2
      rw [if_pos ⟨h1, h2⟩]
    · by_cases h : store[i].id = id ∧ store[i].status = .failed
      · rw [if_pos h]
      · rw [if_neg h]
    · intro h
      rw [if_neg h]

/-- Witness for C6 at a concrete store: retrying a failed job returns true
and moves it back to pending with the error cleared and retry_count kept. -/
theorem c6_retry_only_failed_witness :
    (retryJob [failedRow] 2 epochD).2 = true ∧
    (retryJob [failedRow] 2 epochD).1.get ⟨0, by decide⟩ =
      { failedRow with status := .pending, error_message := none, updated_at := epochD } := by
  have h := c6_retry_only_failed [failedRow] 2 epochD
  refine ⟨h.1.mpr ⟨failedRow, by decide, by decide, by decide⟩, ?_⟩
  exact (h.2.2 0 (by decide) (by decide)).1 (by decide) (by decide)

/-- C2: when the executor reports a non-success result flagged needsAuth and
the job passed the retry-ceiling pre-check, the dispatch loop routes the job
through the very same failJob/markFailed transition as any other failure: the
row becomes failed with the authentication-required message and retry_count
grows by exactly one. -/
theorem c2_needsAuth_counts_like_failure (store : List Row) (job : ScheduledJob)
    (maxRetries : Nat) (r : SkillResult) (json : String) (now : DateTime)
    (hretry : job.retryCount < maxRetries) (hsucc : r.success = false)
    (hauth : r.needsAuth = true) :
    processOneJob store job maxRetries (.ok r) json now =
      markFailed store job.id (authRequiredMessage r.error) now ∧
    ∀ (i : Nat) (hi : i < store.length)
      (hi2 : i < (processOneJob store job maxRetries (.ok r) json now).length),
      (store.get ⟨i, hi⟩).id = job.id →
        ((processOneJob store job maxRetries (.ok r) json now).get ⟨i, hi2⟩).status = .failed ∧
        ((processOneJob store job maxRetries (.ok r) json now).get ⟨i, hi2⟩).error_message =
          some (authRequiredMessage r.error) ∧
        ((processOneJob store job maxRetries (.ok r) json now).get ⟨i, hi2⟩).retry_count =
          (store.get ⟨i, hi⟩).retry_count + 1 := by
  have h1 : processOneJob store job maxRetries (.ok r) json now =
      markFailed store job.id (authRequiredMessage r.error) now := by
    simp only [processOneJob, hsucc, hauth]
    rw [if_neg (by omega), if_neg (by simp), if_pos trivial]
  refine ⟨h1, ?_⟩
  intro i hi hi2
  intro hid
  simp only [h1, markFailed, List.get_eq_getElem, List.getElem_map] at hi2 ⊢
  simp only [List.get_eq_getElem] at hid
  rw [if_pos hid]
  exact ⟨rfl, rfl, rfl⟩

/-- Witness for C2 at a concrete store and executor result. -/
theorem c2_needsAuth_counts_like_failure_witness :
    processOneJob [pendingRow] (rowToJob epochD pendingRow) 3
      (.ok { success := false, error := some "no token", needsAuth := true })
      "res" epochD =
      markFailed [pendingRow] 1 "Authentication required: no token" epochD ∧
    ((processOneJob [pendingRow] (rowToJob epochD pendingRow) 3
      (.ok { success := false, error := some "no token", needsAuth := true })
      "res" epochD).get ⟨0, by decide⟩).retry_count = 1 := by
  have h := c2_needsAuth_counts_like_failure [pendingRow] (rowToJob epochD pendingRow) 3
    { success := false, error := some "no token", needsAuth := true } "res" epochD
    (by decide) rfl rfl
  exact ⟨h.1, ((h.2 0 (by decide) (by decide)) (by decide)).2.2⟩

theorem bytesLt_sqlBytes (d e : DateTime) :
    bytesLt (sqlBytes d) (sqlBytes e) = chronoLtS d e := by
  simp [bytesLt, chronoLtS, bytesCmp_sqlBytes]

/-- The DELETE predicate of deleteOldPosts, restated chronologically. -/
def purgePred (cutoff : DateTime) (r : Row) : Bool :=
  chronoLtS r.created_at cutoff &&
    (r.status == Status.completed || r.status == Status.failed)

/-- C9: purge deletes exactly the completed or failed rows created strictly
before the cutoff instant and reports their number; a pending row survives
regardless of age, and a terminal row not older than the cutoff survives. -/
theorem c9_purge_only_old_terminal (store : List Row) (cutoff : DateTime) :
    (deleteOldPosts store cutoff).1 = store.filter (fun r => !purgePred cutoff r) ∧
    (deleteOldPosts store cutoff).2 = store.countP (purgePred cutoff) ∧
    (∀ r ∈ store, r.status = .pending → r ∈ (deleteOldPosts store cutoff).1) ∧
    (∀ r ∈ store, chronoLtS r.created_at cutoff = false →
      r ∈ (deleteOldPosts store cutoff).1) := by
  have hfil : (deleteOldPosts store cutoff).1 =
      store.filter (fun r => !purgePred cutoff r) := by
    simp only [deleteOldPosts]
    exact List.filter_congr fun r _ => by
      simp [purgePred, bytesLt_sqlBytes]
  refine ⟨hfil, ?_, ?_, ?_⟩
  · have hsum := List.length_eq_countP_add_countP (purgePred cutoff) store
    have hkept : (deleteOldPosts store cutoff).1.length =
        store.countP (fun r => !purgePred cutoff r) := by
      rw [hfil, ← List.countP_eq_length_filter]
    have hnot : store.countP (fun a => decide ¬purgePred cutoff a = true) =
        store.countP (fun r => !purgePred cutoff r) := by
      apply List.countP_congr
      intro r _
      simp
    simp only [deleteOldPosts]
    have : (deleteOldPosts store cutoff).1.length = (store.filter fun r =>
      !(bytesLt (sqlBytes r.created_at) (sqlBytes cutoff) &&
        (r.status == Status.completed || r.status == Status.failed))).length := by
      simp [deleteOldPosts]
    omega
  · intro r hr hpending
    rw [hfil, List.mem_filter]
    refine ⟨hr, ?_⟩
    simp [purgePred, hpending]
  · intro r hr hnew
    rw [hfil, List.mem_filter]
    refine ⟨hr, ?_⟩
    simp [purgePred, hnew]

theorem mapGet_mapDelete (m : List (Nat × OAuthState)) (k : Nat) :
    mapGet (mapDelete m k) k = none := by
  induction m with
  | nil => rfl
  | cons e es ih =>
    by_cases h : e.1 = k
    · simp only [mapDelete, List.filter_cons] at ih ⊢
      rw [if_neg (by simp [h])]
      exact ih
    · simp only [mapDelete, List.filter_cons] at ih ⊢
      rw [if_pos (by simpa using h)]
      simp only [mapGet, List.find?]
      rw [show (e.1 == k) = false by simpa using h]
      exact ih

/-- C4: a state token is consumed at most once.  When the session map holds
the token, the first callback deletes the session and can succeed (200 when
the exchange succeeds); any later callback with the same token is answered
with 400 Invalid State and leaves the session map unchanged. -/
theorem c4_state_consumed_once (m : List (Nat × OAuthState)) (s : Nat)
    (d : OAuthState) (ex : Bool) (h : mapGet m s = some d) :
    verifyState m s = (some d, mapDelete m s) ∧
    handleCallback m s true = (200, mapDelete m s) ∧
    handleCallback (mapDelete m s) s ex = (400, mapDelete m s) ∧
    verifyState (mapDelete m s) s = (none, mapDelete m s) := by
  have h2 : verifyState m s = (some d, mapDelete m s) := by
    simp [verifyState, h]
  have h3 : verifyState (mapDelete m s) s = (none, mapDelete m s) := by
    simp [verifyState, mapGet_mapDelete]
  refine ⟨h2, ?_, ?_, h3⟩
  · simp [handleCallback, h2]
  · simp [handleCallback, h3]

/-- An example handshake session. -/
def exampleSession : OAuthState :=
  { platform := "youtube", userId := "user1", codeVerifier := none }

/-- Witness for C4 at a concrete session map. -/
theorem c4_state_consumed_once_witness :
    handleCallback [(7, exampleSession)] 7 true =
      (200, mapDelete [(7, exampleSession)] 7) ∧
    handleCallback (mapDelete [(7, exampleSession)] 7) 7 false =
      (400, mapDelete [(7, exampleSession)] 7) := by
  have h := c4_state_consumed_once [(7, exampleSession)] 7 exampleSession false rfl
  exact ⟨h.2.1, h.2.2.1⟩

/-- C3 fails on the code: with the hash modelled as the identity and the
successive random draws 0 (first PKCE call), 5 (state token) and 1 (second
PKCE call), the authorization URL carries challenge 0 while the verifier
stored under the state token is 1 — the pair does not match, because the
stored verifier comes from a second generatePKCE invocation.  Moreover no
callback ever sends a code_verifier to the token endpoint: the exchange
rereads the session map after verifyState has already deleted the entry. -/
theorem c3_pkce_pair_broken :
    (generateYouTubeAuthUrl (fun n => n) 0 5 1 "u" []).codeChallenge = 0 ∧
    exchangeCodeVerifierParam (generateYouTubeAuthUrl (fun n => n) 0 5 1 "u" []).states
      (generateYouTubeAuthUrl (fun n => n) 0 5 1 "u" []).state = some 1 ∧
    ∀ (m : List (Nat × OAuthState)) (s : Nat),
      callbackVerifierSent m s = none ∨ callbackVerifierSent m s = some none := by
  refine ⟨rfl, by decide, ?_⟩
  intro m s
  cases h : mapGet m s with
  | none =>
    left
    simp [callbackVerifierSent, verifyState, h]
  | some d =>
    right
    simp [callbackVerifierSent, verifyState, h, exchangeCodeVerifierParam,
      mapGet_mapDelete]

/-- A purge cutoff later than the creation time of the example rows. -/
def cutoffD : DateTime := ⟨2024, 2, 1, 0, 0, 0, 0⟩

/-- Witness for C9 at a concrete store: the old failed row is deleted and
counted, the equally old pending row survives. -/
theorem c9_purge_only_old_terminal_witness :
    (deleteOldPosts [pendingRow, failedRow] cutoffD).2 = 1 ∧
    pendingRow ∈ (deleteOldPosts [pendingRow, failedRow] cutoffD).1 := by
  have h := c9_purge_only_old_terminal [pendingRow, failedRow] cutoffD
  refine ⟨?_, h.2.2.1 pendingRow (by decide) (by decide)⟩
  rw [h.2.1]
  decide

/-- C8: getValidToken returns the stored credential untouched when it is
neither expired nor within the refresh buffer; returns absent without
touching the store when nothing is stored, or when the credential is stale
and either carries no refresh token or no refresh function was supplied;
and when stale with both, calls the refresh function exactly once,
persisting and returning its result on success and returning absent without
store changes when it resolves null or rejects. -/
theorem c8_getValidToken_refresh (store : List TokenData) (p : String)
    (refreshFn : Option (TokenData → RefreshOutcome)) (now : Int) :
    (getToken store p = none →
      getValidToken store p refreshFn now = (none, store, 0)) ∧
    (∀ t, getToken store p = some t →
      needsRefresh t now = false → isExpired t now = false →
      getValidToken store p refreshFn now = (some t, store, 0)) ∧
    (∀ t, getToken store p = some t →
      (needsRefresh t now || isExpired t now) = true →
      t.refreshToken = none →
      getValidToken store p refreshFn now = (none, store, 0)) ∧
    (∀ t rt, getToken store p = some t →
      (needsRefresh t now || isExpired t now) = true →
      t.refreshToken = some rt → refreshFn = none →
      getValidToken store p refreshFn now = (none, store, 0)) ∧
    (∀ t rt f, getToken store p = some t →
      (needsRefresh t now || isExpired t now) = true →
      t.refreshToken = some rt → refreshFn = some f →
      ((∀ nt, f t = .success nt →
        getValidToken store p refreshFn now = (some nt, saveToken store nt, 1)) ∧
       (f t = .nullResult →
        getValidToken store p refreshFn now = (none, store, 1)) ∧
       (f t = .threw →
        getValidToken store p refreshFn now = (none, store, 1)))) := by
  refine ⟨?_, ?_, ?_, ?_, ?_⟩
  · intro h
    simp [getValidToken, h]
  · intro t ht hnr hex
    simp [getValidToken, ht, hnr, hex]
  · intro t ht hstale hrt
    have hcond : (!needsRefresh t now && !isExpired t now) = false := by
      rcases Bool.or_eq_true_iff.mp hstale with h | h <;> simp [h]
    simp [getValidToken, ht, hcond, hrt]
  · intro t rt ht hstale hrt hfn
    have hcond : (!needsRefresh t now && !isExpired t now) = false := by
      rcases Bool.or_eq_true_iff.mp hstale with h | h <;> simp [h]
    simp [getValidToken, ht, hcond, hrt, hfn]
  · intro t rt f ht hstale hrt hfn
    have hcond : (!needsRefresh t now && !isExpired t now) = false := by
      rcases Bool.or_eq_true_iff.mp hstale with h | h <;> simp [h]
    refine ⟨?_, ?_, ?_⟩
    · intro nt hf
      simp [getValidToken, ht, hcond, hrt, hfn, hf]
    · intro hf
      simp [getValidToken, ht, hcond, hrt, hfn, hf]
    · intro hf
      simp [getValidToken, ht, hcond, hrt, hfn, hf]

/-- A stored credential with no expiry (never stale). -/
def freshTok : TokenData :=
  { platform := "youtube", accessToken := "at", refreshToken := none,
    expiresAt := none }

/-- A stored credential whose expiry has passed, with a refresh token. -/
def staleTok : TokenData :=
  { platform := "tiktok", accessToken := "old", refreshToken := some "rt",
    expiresAt := some 0 }

/-- The credential a successful refresh returns. -/
def renewedTok : TokenData :=
  { platform := "tiktok", accessToken := "new", refreshToken := some "rt2",
    expiresAt := none }

/-- Witness for C8: a fresh credential is returned unchanged; a stale one
with refresh token and refresh function is replaced by the refresh result
with exactly one refresh invocation. -/
theorem c8_getValidToken_refresh_witness :
    getValidToken [freshTok] "youtube" none 0 = (some freshTok, [freshTok], 0) ∧
    getValidToken [staleTok] "tiktok" (some fun _ => .success renewedTok) 1000000 =
      (some renewedTok, saveToken [staleTok] renewedTok, 1) := by
  have h1 := c8_getValidToken_refresh [freshTok] "youtube" none 0
  have h2 := c8_getValidToken_refresh [staleTok] "tiktok"
    (some fun _ => .success renewedTok) 1000000
  exact ⟨h1.2.1 freshTok rfl (by decide) (by decide),
    (h2.2.2.2.2 staleTok "rt" _ rfl (by decide) rfl rfl).1 renewedTok rfl⟩

/-- C10: when scheduled_at is NULL in the store, every read path (getJobById,
getPendingJobs, listJobs all map rows through rowToJob) reports the clock
time of the read as scheduledAt, so the reported value differs between two
reads at different times and an absent value is never reported. -/
theorem c10_null_schedule_reads_as_clock (store : List Row) (now1 now2 : DateTime)
    (id : Nat) (r : Row) (opts : ListOptions) :
    (store.find? (fun x => x.id == id) = some r → r.scheduled_at = none →
      (getJobById store id now1).map (fun j => j.scheduledAt) = some now1 ∧
      (getJobById store id now2).map (fun j => j.scheduledAt) = some now2) ∧
    (∀ (i : Nat) (hi : i < (getPendingRows store now1).length)
      (hi2 : i < (getPendingJobs store now1).length),
      ((getPendingRows store now1).get ⟨i, hi⟩).scheduled_at = none →
      ((getPendingJobs store now1).get ⟨i, hi2⟩).scheduledAt = now1) ∧
    (∀ j, j ∈ listJobs store opts now1 → ∃ x ∈ store, j = rowToJob now1 x) ∧
    (∀ x : Row, x.scheduled_at = none →
      (rowToJob now1 x).scheduledAt = now1 ∧ (rowToJob now2 x).scheduledAt = now2) := by
  refine ⟨?_, ?_, ?_, ?_⟩
  · intro hf hnull
    simp [getJobById, hf, rowToJob, hnull]
  · intro i hi hi2 hnull
    simp only [getPendingJobs, List.get_eq_getElem, List.getElem_map] at hi2 ⊢
    simp only [List.get_eq_getElem] at hnull
    simp [rowToJob, hnull]
  · intro jb hjb
    cases hm : opts.limit with
    | none =>
      simp only [listJobs, hm, List.mem_map] at hjb
      obtain ⟨x, hx, hmap⟩ := hjb
      simp only [List.mem_insertionSort, List.mem_filter] at hx
      exact ⟨x, hx.1, hmap.symm⟩
    | some k =>
      simp only [listJobs, hm, List.mem_map] at hjb
      obtain ⟨x, hx, hmap⟩ := hjb
      have hx2 := List.take_subset k _ hx
      simp only [List.mem_insertionSort, List.mem_filter] at hx2
      exact ⟨x, hx2.1, hmap.symm⟩
  · intro x hnull
    exact ⟨by simp [rowToJob, hnull], by simp [rowToJob, hnull]⟩

/-- A row with NULL scheduled_at used by the C10 witness. -/
theorem c10_null_schedule_reads_as_clock_witness :
    (getJobById [pendingRow] 1 cutoffD).map (fun j => j.scheduledAt) = some cutoffD := by
  have h := c10_null_schedule_reads_as_clock [pendingRow] cutoffD epochD 1 pendingRow
    { status := none, platform := none, limit := none }
  exact (h.1 (by decide) (by decide)).1

theorem chronoCmp_swap (d e : DateTime) : chronoCmp e d = (chronoCmp d e).swap := by
  rw [← bytesCmp_isoBytes, ← bytesCmp_isoBytes, bytesCmp_swap]

theorem chronoCmpS_swap (d e : DateTime) : chronoCmpS e d = (chronoCmpS d e).swap := by
  rw [← bytesCmp_sqlBytes, ← bytesCmp_sqlBytes, bytesCmp_swap]

theorem chronoLt_false_of_iso_le {d1 d2 : DateTime}
    (h : bytesCmp (isoBytes d1) (isoBytes d2) ≠ .gt) : chronoLt d2 d1 = false := by
  unfold chronoLt
  rw [chronoCmp_swap, ← bytesCmp_isoBytes]
  cases hc : bytesCmp (isoBytes d1) (isoBytes d2) with
  | lt => rfl
  | eq => rfl
  | gt => exact absurd hc h

theorem chronoLtS_false_of_sql_le {a b : DateTime}
    (h : bytesCmp (sqlBytes a) (sqlBytes b) ≠ .gt) : chronoLtS b a = false := by
  unfold chronoLtS
  rw [chronoCmpS_swap, ← bytesCmp_sqlBytes]
  cases hc : bytesCmp (sqlBytes a) (sqlBytes b) with
  | lt => rfl
  | eq => rfl
  | gt => exact absurd hc h

/-- C7: in the ready set two rows at positions i < j are ordered by
scheduled_at ascending with NULL first — a later row is never scheduled
strictly before an earlier one — and rows with equal schedule times (or both
NULL) are ordered by creation time ascending. -/
theorem c7_ready_set_ordering (store : List Row) (now : DateTime)
    (i j : Nat) (hi : i < (getPendingRows store now).length)
    (hj : j < (getPendingRows store now).length) (hij : i < j) :
    (((getPendingRows store now).get ⟨j, hj⟩).scheduled_at = none →
      ((getPendingRows store now).get ⟨i, hi⟩).scheduled_at = none) ∧
    (∀ d1 d2, ((getPendingRows store now).get ⟨i, hi⟩).scheduled_at = some d1 →
      ((getPendingRows store now).get ⟨j, hj⟩).scheduled_at = some d2 →
      chronoLt d2 d1 = false) ∧
    (∀ d, ((getPendingRows store now).get ⟨i, hi⟩).scheduled_at = some d →
      ((getPendingRows store now).get ⟨j, hj⟩).scheduled_at = some d →
      chronoLtS (((getPendingRows store now).get ⟨j, hj⟩).created_at)
        (((getPendingRows store now).get ⟨i, hi⟩).created_at) = false) ∧
    (((getPendingRows store now).get ⟨i, hi⟩).scheduled_at = none →
      ((getPendingRows store now).get ⟨j, hj⟩).scheduled_at = none →
      chronoLtS (((getPendingRows store now).get ⟨j, hj⟩).created_at)
        (((getPendingRows store now).get ⟨i, hi⟩).created_at) = false) := by
  have hsorted : (getPendingRows store now).Sorted (fun a b => rowLe a b = true) :=
    List.sorted_insertionSort (fun a b => rowLe a b = true)
      ((store.filter (pendingWhere now)))
  have hrel : rowLe ((getPendingRows store now).get ⟨i, hi⟩)
      ((getPendingRows store now).get ⟨j, hj⟩) = true :=
    hsorted.rel_get_of_lt hij
  rw [rowLe_iff] at hrel
  simp only [rowCmp, ordering_then_ne_gt] at hrel
  refine ⟨?_, ?_, ?_, ?_⟩
  · intro hjn
    rw [hjn] at hrel
    cases hin : ((getPendingRows store now).get ⟨i, hi⟩).scheduled_at with
    | none => rfl
    | some d =>
      rw [hin] at hrel
      rcases hrel with h | ⟨h, _⟩
      · exact nomatch h
      · exact nomatch h
  · intro d1 d2 h1 h2
    rw [h1, h2] at hrel
    rcases hrel with h | ⟨h, _⟩
    · exact chronoLt_false_of_iso_le (by rw [show schedCmp (some d1) (some d2) =
        bytesCmp (isoBytes d1) (isoBytes d2) from rfl] at h; simp [h])
    · exact chronoLt_false_of_iso_le (by rw [show schedCmp (some d1) (some d2) =
        bytesCmp (isoBytes d1) (isoBytes d2) from rfl] at h; simp [h])
  · intro d h1 h2
    rw [h1, h2] at hrel
    rcases hrel with h | ⟨_, h⟩
    · have : bytesCmp (isoBytes d) (isoBytes d) = .eq := (bytesCmp_eq_iff _ _).mpr rfl
      rw [show schedCmp (some d) (some d) =
        bytesCmp (isoBytes d) (isoBytes d) from rfl, this] at h
      exact nomatch h
    · exact chronoLtS_false_of_sql_le h
  · intro h1 h2
    rw [h1, h2] at hrel
    rcases hrel with h | ⟨_, h⟩
    · exact nomatch h
    · exact chronoLtS_false_of_sql_le h

/-- An old creation instant for the C7 witness rows. -/
def june13 : DateTime := ⟨2024, 6, 13, 0, 0, 0, 0⟩

/-- Ready row scheduled 2024-06-14 09:00. -/
def rowT1 : Row :=
  { pendingRow with
      id := 11
      scheduled_at := some ⟨2024, 6, 14, 9, 0, 0, 0⟩
      created_at := june13 }

/-- Ready row scheduled 2024-06-14 10:00, created after rowT1. -/
def rowT2 : Row :=
  { pendingRow with
      id := 12
      scheduled_at := some ⟨2024, 6, 14, 10, 0, 0, 0⟩
      created_at := ⟨2024, 6, 13, 0, 0, 1, 0⟩ }

/-- A clock instant on 2024-06-15, when both witness rows are ready. -/
def nowJune15 : DateTime := ⟨2024, 6, 15, 12, 0, 0, 0⟩

/-- Witness for C7: in the concrete ready set the job scheduled at 09:00
precedes the one scheduled at 10:00 even though the store listed them in the
opposite order, and the ordering conclusion instantiates. -/
theorem c7_ready_set_ordering_witness :
    chronoLt (⟨2024, 6, 14, 10, 0, 0, 0⟩ : DateTime) ⟨2024, 6, 14, 9, 0, 0, 0⟩ = false := by
  have h := c7_ready_set_ordering [rowT2, rowT1] nowJune15 0 1
    (by decide) (by decide) (by decide)
  exact h.2.1 ⟨2024, 6, 14, 9, 0, 0, 0⟩ ⟨2024, 6, 14, 10, 0, 0, 0⟩ (by decide) (by decide)

/-- The ready-set selection predicate exactly as the claim and the spec
state it: status pending, scheduledAt absent or not after now (as instants),
and retryCount strictly below the configured maxRetries. -/
def specReadySelect (maxRetries : Nat) (now : DateTime) (r : Row) : Bool :=
  r.status == .pending &&
  (match r.scheduled_at with
   | none => true
   | some d => chronoLe d now) &&
  decide (r.retry_count < maxRetries)

/-- A pending, never-failed row scheduled at 10:00 on the same UTC day the
clock reads 12:00: two hours in the past. -/
def sameDayRow : Row :=
  { pendingRow with
      id := 21
      scheduled_at := some ⟨2024, 6, 15, 10, 0, 0, 0⟩
      created_at := june13 }

/-- A pending row with no schedule whose retry_count is 3. -/
def retriedRow : Row :=
  { pendingRow with
      id := 22
      retry_count := 3 }

/-- C1 fails on the code, at two points.  First, the stored toISOString text
2024-06-15T10:00:00.000Z compares bytewise greater than the SQLite text
datetime(now) = 2024-06-15 12:00:00 (the T at offset 10 exceeds the space),
so a job scheduled two hours in the past is excluded from the ready set even
though the claim requires it to be present.  Second, the query hardcodes
retry_count < 3, so with maxRetries configured as 5 a pending job at
retry_count 3 is again absent although the claim admits it. -/
theorem c1_ready_set_diverges :
    specReadySelect 3 nowJune15 sameDayRow = true ∧
    getPendingRows [sameDayRow] nowJune15 = [] ∧
    specReadySelect 5 nowJune15 retriedRow = true ∧
    getPendingRows [retriedRow] nowJune15 = [] := by
  refine ⟨by decide, by decide, by decide, by decide⟩
